import Mathlib

/-!
Shallow embedding of `src/cryptos/electrumx_client/rpc.py` (class `ElectrumXClient`
and its helper `RPCClient`): server selection, connection failover, concurrent
request batching with timeout, the fee cache, and subscription dispatch.

Conventions of the embedding:
* Python exceptions become an explicit error type `PyErr`; a raised exception
  propagates as `Except.error` carrying the client state at raise time
  (attribute mutations made before the raise persist, as in Python).
* The blocking/async layer is modelled by a fuel-indexed interpreter: `none`
  means the computation has not finished within the given fuel (used to reason
  about nontermination), `some r` is the finished outcome.
* `random.choice` is modelled by an explicit stream of numbers (`rng`), one
  entry consumed per call; the pick is `rng.headD 0 % length`.
* Time is a `Nat` (minutes for the fee cache, seconds for request timeouts).
-/

namespace ElectrumX

/-- JSON-like values carried in RPC payloads (enough structure for the
claims: strings, numbers, arrays, null). -/
inductive Val where
  | null
  | str (s : String)
  | num (n : Int)
  | arr (xs : List Val)

/-- Python truthiness of a `Val` (`if result[...]:`): `None`, `""`, `0` and
`[]` are falsy, everything else truthy. -/
def Val.truthy : Val → Bool
  | .null => false
  | .str s => !(s == "")
  | .num n => !(n == 0)
  | .arr xs => !xs.isEmpty

/-- Truthiness of an optional field (`None` is falsy). -/
def errTruthy : Option Val → Bool
  | none => false
  | some v => v.truthy

abbrev Host := String

/-- A request is a `(method, params)` pair, as built by the `_`-prefixed
helpers of `ElectrumXClient`. -/
abbrev Request := String × List Val

/-- One entry of the server catalog: `{host: {"s": tlsPort, "t": plainPort,
"usable": bool}}`.  A missing `"s"`/`"t"` key is `none`; `get('usable', True)`
defaults to `true`. -/
structure ServerInfo where
  s : Option Nat
  t : Option Nat
  usable : Bool := true
deriving Repr, DecidableEq

/-- The server registry `self.servers`: a Python dict modelled as an
association list with (in well-formed states) pairwise distinct hosts. -/
abbrev Servers := List (Host × ServerInfo)

/-- Model of `ElectrumXClient.server_is_usable` (rpc.py lines 97-102): with SSL the
server must advertise an `"s"` port, without SSL a `"t"` port, and its
`usable` flag (defaulting to true) must not be false. -/
def server_is_usable (use_ssl : Bool) (server : ServerInfo) : Bool :=
  if use_ssl && server.s.isNone then false
  else if !use_ssl && server.t.isNone then false
  else server.usable

/-- The port the TLS policy requires: `servers[host]['s']` when `use_ssl`,
`servers[host]['t']` otherwise (`none` models the `KeyError` case). -/
def portFor (use_ssl : Bool) (info : ServerInfo) : Option Nat :=
  if use_ssl then info.s else info.t

/-- The Python exceptions that can propagate out of the modelled code paths.
`indexError`, `keyError`, `attributeError` and `typeError` are the builtins;
`failoverExhausted` is the bare `Exception("Attempted to connect to %s servers
but failed")` raised by `change_server` (it carries the failed-host count);
`rpcResponseException` is rpc.py's only custom exception class
(`RPCResponseExecption`, carrying the server-supplied error payload);
`exceptionErr` is the bare `Exception(error)` raised by the subscription
dispatch closures; `timeoutError` is `asyncio.TimeoutError`. -/
inductive PyErr where
  | indexError
  | keyError (k : String)
  | attributeError (attr : String)
  | typeError
  | timeoutError
  | failoverExhausted (n : Nat)
  | rpcResponseException (payload : Val)
  | exceptionErr (payload : Val)

/-- Model of `del self.servers[host]`: remove the entry with the given key. -/
def delKey (ss : Servers) (h : Host) : Servers :=
  ss.filter (fun p => !(p.1 == h))

/-- Model of `random.choice(list(dict.keys()))`, fed by the rng stream: `none` models
the `IndexError` raised on an empty sequence; otherwise one stream entry is
consumed and the pick is `headD 0 % length`. -/
def pyChoice (rng : List Nat) (l : Servers) : Option ((Host × ServerInfo) × List Nat) :=
  match l with
  | [] => none
  | x :: xs =>
    some ((x :: xs).get ⟨rng.headD 0 % (x :: xs).length, Nat.mod_lt _ (Nat.succ_pos _)⟩,
      rng.tail)

/-- Recursion core of `ElectrumXClient.choose_random_server` (rpc.py lines
112-120).  The source recurses after `del self.servers[host]` on `KeyError`;
each recursion removes one registry entry, so the recursion depth is bounded
by the registry size.  The counter makes that bound explicit: it starts at
`servers.length + 1` (see `choose_random_server`) and the `0` case is
unreachable (the registry empties first, raising `IndexError` from
`random.choice`, which the `0` case also returns for definiteness).

Results: `.ok ((host, port), servers, rng)` for a successful pick, `.error
(err, servers, rng)` for a raised exception; both carry the registry (with
the deletions made so far) and the remaining rng stream. -/
def choose_random_server_go (counter : Nat) (use_ssl : Bool) (rng : List Nat)
    (servers : Servers) :
    Except (PyErr × Servers × List Nat) ((Host × Nat) × Servers × List Nat) :=
  match counter with
  | 0 => .error (.indexError, servers, rng)
  | counter + 1 =>
    match pyChoice rng servers with
    | none => .error (.indexError, servers, rng)
    | some ((host, info), rng') =>
      match portFor use_ssl info with
      | some port => .ok ((host, port), servers, rng')
      | none => choose_random_server_go counter use_ssl rng' (delKey servers host)

/-- Model of `ElectrumXClient.choose_random_server` (rpc.py lines 112-120): pick a
random host; return it with the port for the TLS policy; on a missing port
(`KeyError`) delete the host from the registry and retry; an empty registry
raises `IndexError` (from `random.choice` on an empty sequence — the error
payload; rpc.py defines no dedicated error class for this). -/
def choose_random_server (use_ssl : Bool) (rng : List Nat) (servers : Servers) :
    Except (PyErr × Servers × List Nat) ((Host × Nat) × Servers × List Nat) :=
  choose_random_server_go (servers.length + 1) use_ssl rng servers

/-- One result dict as stored by `RPCClient.handle_response` (rpc.py lines
53-54): `{'data': data, 'error': error, 'method': method, 'params': params}`,
returned to the waiter by `wait_for_response` via `self.result.pop(id_)`. -/
structure RpcResult where
  method : String
  params : List Val
  data : Option Val
  error : Option Val

/-- One pending wait built in `get_coroutines`: `asyncio.wait_for
(self.rpc_client.wait_for_response(id_), self.timeout)`.  Creating this
coroutine performs no awaiting; it only records the id and the timeout bound
(plus the request's method/params, which `handle_response` stores under the
id).  It is evaluated later by `gather`. -/
structure WaitFor where
  id : Nat
  method : String
  params : List Val
  timeout : Nat

/-- Outcome of `TCPConnection(...).create_connection()` plus
`connection_made` (rpc.py lines 125-129): success, a raised `OSError` or
`ssl.SSLError` (caught by the outer `except` of `connect_to_server`), or a
falsy transport/rpc_client (`if not transport or not self.rpc_client`). -/
inductive ConnOutcome where
  | ok
  | raiseOS
  | raiseSSL
  | nullTransport

/-- The external world: connection outcomes per (host, port), and — per
request id on the current connection — whether the transport write raises
`OSError`, the response arrival time in seconds, and the `data`/`error`
fields the server answers with.  Quantifying theorems over arbitrary `Env`
captures "regardless of arrival order" and "all servers reject", etc. -/
structure Env where
  connect : Host → Nat → ConnOutcome
  sendFails : Nat → Bool
  arrival : Nat → Nat
  data : Nat → Option Val
  err : Nat → Option Val

/-- The mutable attributes of an `ElectrumXClient` instance used by the
modelled methods.  `transportAttr` models the Python attribute
`self.transport`: `none` means the attribute was never assigned (reading it
raises `AttributeError`); `some none` is `self.transport = None`; `some
(some ())` a live transport.  `nextId` is the next request id the session
allocates (ids restart on a fresh connection); `attempts` counts
`create_connection` calls (observational instrumentation). -/
structure ClientState where
  use_ssl : Bool
  client_name : String
  protocol_version : Val
  timeout : Nat
  max_servers : Nat
  servers : Servers
  host : Host
  port : Nat
  failed_hosts : List Host
  transportAttr : Option (Option Unit)
  server_electrumx_version : Option Val
  server_protocol_version : Option Val
  rng : List Nat
  nextId : Nat
  attempts : Nat

/-- The failed-host list after `change_server`'s conditional append
(rpc.py lines 143-144): `if self.host not in self.failed_hosts:
self.failed_hosts.append(self.host)`. -/
def failedAfterAppend (failed : List Host) (h : Host) : List Host :=
  if failed.contains h then failed else failed ++ [h]

/-- The result dict delivered for one awaited id (see `RpcResult`). -/
def mkResult (env : Env) (w : WaitFor) : RpcResult :=
  { method := w.method, params := w.params, data := env.data w.id, error := env.err w.id }

/-- Model of `self.loop.run_until_complete(asyncio.gather(*coroutines))` (rpc.py line
170): run all pending waits; each `asyncio.wait_for` raises
`asyncio.TimeoutError` if its response arrives later than its timeout bound;
a raised exception propagates out of `run_until_complete` (gather returns the
results in argument order, independent of arrival order). -/
def gather (env : Env) : List WaitFor → Except PyErr (List RpcResult)
  | [] => .ok []
  | w :: ws =>
    if w.timeout < env.arrival w.id then .error .timeoutError
    else
      match gather env ws with
      | .error e => .error e
      | .ok rs => .ok (mkResult env w :: rs)

/-- The wait list `get_coroutines` builds for a request list when every send
succeeds: sequential ids from `base`, all bounded by `timeout`. -/
def mkWaits (base timeout : Nat) : List Request → List WaitFor
  | [] => []
  | (m, p) :: rest => ⟨base, m, p, timeout⟩ :: mkWaits (base + 1) timeout rest

/-- Results of the fuel-indexed interpreter: `none` = not finished within the
fuel; errors carry the client state at raise time. -/
abbrev Res (α : Type) := Option (Except (PyErr × ClientState) α)

mutual

/-- Model of `ElectrumXClient.connect_to_server` (rpc.py lines 122-137): try to create
a connection to `(self.host, self.port)`; on `OSError`/`ssl.SSLError`, on a
falsy transport, or on a handshake failure (`server.version` raising
`RPCResponseExecption`) call `change_server`; on success perform the
`server.version` handshake through `run_command` and record the two version
strings.  The created transport is bound only to a local variable — the
attribute `self.transport` is never assigned here. -/
def connect_to_server (fuel : Nat) (env : Env) (s : ClientState) : Res ClientState :=
  match fuel with
  | 0 => none
  | fuel + 1 =>
    let s := { s with attempts := s.attempts + 1 }
    match env.connect s.host s.port with
    | .raiseOS => change_server fuel env s
    | .raiseSSL => change_server fuel env s
    | .nullTransport =>
      -- `if not transport or not self.rpc_client: self.change_server()`; if
      -- change_server returns normally the source then calls
      -- `connection_made(transport)` on the falsy transport (the jsonrpc
      -- layer, outside rpc.py, fails on a null transport).
      match change_server fuel env s with
      | some (.ok s') => some (.error (.typeError, s'))
      | r => r
    | .ok =>
      -- `self.rpc_client.connection_made(transport)`: a fresh `RPCClient`
      -- session is installed; its id allocation restarts at 0 (the jsonrpc
      -- session layer is outside rpc.py; modelled from the spec's Session
      -- contract: ids are freshly allocated per session).
      let s := { s with nextId := 0 }
      match run_command fuel env s ("server.version", [.str s.client_name, s.protocol_version]) with
      | none => none
      | some (.error (.rpcResponseException _, s')) => change_server fuel env s'
      | some (.error e) => some (.error e)
      | some (.ok (d, s')) =>
        match d with
        | some (.arr (v0 :: v1 :: _)) =>
          some (.ok { s' with
            server_electrumx_version := some v0, server_protocol_version := some v1 })
        | _ =>
          -- `result[0]` on a payload that is not a (long enough) sequence
          some (.error (.typeError, s'))
termination_by structural fuel

/-- Model of `ElectrumXClient.change_server` (rpc.py lines 139-149): read
`self.transport` (AttributeError if the attribute was never assigned!); if
truthy close it and set it to `None`; append the current host to
`failed_hosts` if absent; raise the exhaustion `Exception` once
`len(failed_hosts) >= max_servers`; otherwise re-pick a server until the host
is not a failed one and reconnect. -/
def change_server (fuel : Nat) (env : Env) (s : ClientState) : Res ClientState :=
  match fuel with
  | 0 => none
  | fuel + 1 =>
    match s.transportAttr with
    | none => some (.error (.attributeError "transport", s))
    | some tr =>
      let s := if tr.isSome then { s with transportAttr := some none } else s
      let s := { s with failed_hosts := failedAfterAppend s.failed_hosts s.host }
      if s.max_servers ≤ s.failed_hosts.length then
        some (.error (.failoverExhausted s.failed_hosts.length, s))
      else
        match change_server_loop fuel env s with
        | none => none
        | some (.error e) => some (.error e)
        | some (.ok s') => connect_to_server fuel env s'
termination_by structural fuel

/-- The `while self.host in self.failed_hosts:` loop of `change_server`
(rpc.py lines 147-148): re-pick a random server (mutating the registry and
consuming rng) until the current host is not in the failed set. -/
def change_server_loop (fuel : Nat) (env : Env) (s : ClientState) : Res ClientState :=
  match fuel with
  | 0 => none
  | fuel + 1 =>
    if s.failed_hosts.contains s.host then
      match choose_random_server s.use_ssl s.rng s.servers with
      | .error (e, servers', rng') =>
        some (.error (e, { s with servers := servers', rng := rng' }))
      | .ok ((h, p), servers', rng') =>
        change_server_loop fuel env { s with host := h, port := p, servers := servers', rng := rng' }
    else some (.ok s)
termination_by structural fuel

/-- The request loop of `ElectrumXClient.get_coroutines` (rpc.py lines
151-166): for each `(method, params)` send the request and collect the wait
coroutine.  If the send raises `OSError`, fail over and resubmit the entire
original batch through `rpc_multiple_send_and_wait` (whose finished values —
not coroutines — are then returned, `.inr`).  The source's inner
`except asyncio.TimeoutError` surrounds only the construction of the
`wait_for` coroutine, which performs no awaiting and cannot raise
`TimeoutError`; that handler is dead code and has no branch here. -/
def get_coroutines_go (fuel : Nat) (env : Env) (s : ClientState)
    (original rest : List Request) (acc : List WaitFor) :
    Res ((List WaitFor × ClientState) ⊕ (List RpcResult × ClientState)) :=
  match fuel with
  | 0 => none
  | fuel + 1 =>
    match rest with
    | [] => some (.ok (.inl (acc, s)))
    | (m, p) :: rest' =>
      if env.sendFails s.nextId then
        match change_server fuel env s with
        | none => none
        | some (.error e) => some (.error e)
        | some (.ok s') =>
          match rpc_multiple_send_and_wait fuel env s' original with
          | none => none
          | some (.error e) => some (.error e)
          | some (.ok (values, s'')) => some (.ok (.inr (values, s'')))
      else
        get_coroutines_go fuel env { s with nextId := s.nextId + 1 } original rest'
          (acc ++ [⟨s.nextId, m, p, s.timeout⟩])
termination_by structural fuel

/-- Model of `ElectrumXClient.rpc_multiple_send_and_wait` (rpc.py lines 168-172):
build the coroutines, run them all under `gather`, clear `failed_hosts` on
full success and return the values.  A `TimeoutError` raised while gathering
propagates to the caller (nothing here catches it).  If `get_coroutines`
returned already-finished values (its `OSError`-resubmission path), the
source passes those non-awaitables to `asyncio.gather`, which raises
`TypeError`. -/
def rpc_multiple_send_and_wait (fuel : Nat) (env : Env) (s : ClientState)
    (requests : List Request) : Res (List RpcResult × ClientState) :=
  match fuel with
  | 0 => none
  | fuel + 1 =>
    match get_coroutines_go fuel env s requests requests [] with
    | none => none
    | some (.error e) => some (.error e)
    | some (.ok (.inl (ws, s'))) =>
      match gather env ws with
      | .error e => some (.error (e, s'))
      | .ok values => some (.ok (values, { s' with failed_hosts := [] }))
    | some (.ok (.inr (_, s'))) => some (.error (.typeError, s'))
termination_by structural fuel

/-- Model of `ElectrumXClient.run_command` (rpc.py lines 202-207): run the single
request through the batcher, unwrap the one result (`[0]`), raise
`RPCResponseExecption(result['error'])` when the error field is truthy,
otherwise return `result['data']`. -/
def run_command (fuel : Nat) (env : Env) (s : ClientState) (request : Request) :
    Res (Option Val × ClientState) :=
  match fuel with
  | 0 => none
  | fuel + 1 =>
    match rpc_multiple_send_and_wait fuel env s [request] with
    | none => none
    | some (.error e) => some (.error e)
    | some (.ok (values, s')) =>
      match values with
      | [] => some (.error (.indexError, s'))
      | r :: _ =>
        match r.error with
        | some e => if e.truthy then some (.error (.rpcResponseException e, s'))
                    else some (.ok (r.data, s'))
        | none => some (.ok (r.data, s'))
termination_by structural fuel

end

/-- Model of the `ElectrumXClient.get_coroutines` entry point (rpc.py line 151). -/
def get_coroutines (fuel : Nat) (env : Env) (s : ClientState) (requests : List Request) :
    Res ((List WaitFor × ClientState) ⊕ (List RpcResult × ClientState)) :=
  get_coroutines_go fuel env s requests requests []

/-- The attribute state `ElectrumXClient.__init__` (rpc.py lines 68-95) has
built right before its final `self.connect_to_server()` call, for a given
already-chosen `(host, port)`.  The registry is the catalog filtered by
`server_is_usable`; `failed_hosts` starts empty; **no statement of
`__init__` assigns `self.transport`**, so `transportAttr` is `none`. -/
def init_state (use_ssl : Bool) (client_name : String) (protocol_version : Val)
    (timeout max_servers : Nat) (catalog : Servers) (host : Host) (port : Nat)
    (rng : List Nat) : ClientState :=
  { use_ssl := use_ssl
    client_name := client_name
    protocol_version := protocol_version
    timeout := timeout
    max_servers := max_servers
    servers := catalog.filter (fun p => server_is_usable use_ssl p.2)
    host := host
    port := port
    failed_hosts := []
    transportAttr := none
    server_electrumx_version := none
    server_protocol_version := none
    rng := rng
    nextId := 0
    attempts := 0 }

/-! ### Fee cache -/

/-- One entry of `self.cache['fees']`: `{'fee': fee, 'expiry': now + interval}`.
Time is in minutes. -/
structure FeeEntry where
  fee : Val
  expiry : Nat

/-- The `self.cache['fees']` dict, keyed by `numblocks`. -/
abbrev FeeCache := List (Nat × FeeEntry)

/-- Store `self.cache['fees'][numblocks] = entry` (replace or insert). -/
def setFee (fees : FeeCache) (numblocks : Nat) (entry : FeeEntry) : FeeCache :=
  if (fees.lookup numblocks).isSome then
    fees.map (fun q => if q.1 = numblocks then (numblocks, entry) else q)
  else fees ++ [(numblocks, entry)]

/-- Model of `ElectrumXClient.estimate_fee_cached` (rpc.py lines 215-222), exactly as
written: return the cached fee when an entry exists **and its expiry is ≤
now** (sic — the comparison in the source); otherwise issue the underlying
`estimate_fee` RPC (whose current answer is the oracle `rpcFee`), cache it
with `expiry = now + cache` minutes, and return it.  The result carries the
updated cache and the number of underlying RPC calls issued (0 or 1). -/
def estimate_fee_cached (now cache : Nat) (fees : FeeCache) (numblocks : Nat)
    (rpcFee : Val) : Val × FeeCache × Nat :=
  match fees.lookup numblocks with
  | some entry =>
    if entry.expiry ≤ now then (entry.fee, fees, 0)
    else (rpcFee, setFee fees numblocks ⟨rpcFee, now + cache⟩, 1)
  | none => (rpcFee, setFee fees numblocks ⟨rpcFee, now + cache⟩, 1)

/-- The corrected fee-cache predicate the spec states as the intended
behaviour ("return the cached value only while not yet expired, i.e. `now <
expiresAt`, and otherwise refresh"), for comparison with the source's
`estimate_fee_cached` above. -/
def estimate_fee_cached_spec (now cache : Nat) (fees : FeeCache) (numblocks : Nat)
    (rpcFee : Val) : Val × FeeCache × Nat :=
  match fees.lookup numblocks with
  | some entry =>
    if now < entry.expiry then (entry.fee, fees, 0)
    else (rpcFee, setFee fees numblocks ⟨rpcFee, now + cache⟩, 1)
  | none => (rpcFee, setFee fees numblocks ⟨rpcFee, now + cache⟩, 1)

/-! ### Broadcast helper -/

/-- Model of `ElectrumXClient._broadcast_transaction` (rpc.py lines 230-231): the
request the broadcast SHOULD run. -/
def underscore_broadcast_transaction (raw_tx : String) : Request :=
  ("blockchain.transaction.broadcast", [.str raw_tx])

/-- Model of `ElectrumXClient.broadcast_transaction` (rpc.py lines 233-234), exactly
as written: `return self.run_command(self.broadcast_transaction(raw_tx))` —
the argument of `run_command` is the **recursive call to itself** (not the
`_broadcast_transaction` request builder), so the argument evaluation
recurses before `run_command` can ever run. -/
def broadcast_transaction (fuel : Nat) (env : Env) (s : ClientState) (raw_tx : String) :
    Res (Option Val × ClientState) :=
  match fuel with
  | 0 => none
  | fuel + 1 =>
    match broadcast_transaction fuel env s raw_tx with
    | none => none
    | some (.error e) => some (.error e)
    | some (.ok (_, s')) =>
      -- unreachable (proved below): were a value ever produced, the source
      -- would pass it to `run_command`, which expects a (method, params)
      -- pair and would fail unpacking it
      some (.error (.typeError, s'))

/-! ### Subscription dispatch -/

/-- The requests `subscribe_to_scripthashes` sends (rpc.py lines 355-356):
one `blockchain.scripthash.subscribe` per scripthash key of the
`addrs_scripthashes` mapping. -/
def subscribe_requests (addrs_scripthashes : List (String × String)) : List Request :=
  addrs_scripthashes.map (fun q => ("blockchain.scripthash.subscribe", [.str q.1]))

/-- The closure `handle_scripthash_notify` registered by
`ElectrumXClient.subscribe_to_scripthashes` (rpc.py lines 357-362): on a push
`(data, error)` it raises `Exception(error)` if `error` is truthy, otherwise
reads `scripthash = data[0]`, looks up the external address
`addrs_scripthashes[scripthash]` captured at subscribe time, and invokes
`callback(address, data[1])`.  The result is the argument pair handed to the
callback. -/
def handle_scripthash_notify (addrs_scripthashes : List (String × String))
    (data : List Val) (error : Option Val) : Except PyErr (String × Val) :=
  if errTruthy error then .error (.exceptionErr (error.getD .null))
  else
    match data with
    | [] => .error .indexError
    | d0 :: rest =>
      match d0 with
      | .str scripthash =>
        match addrs_scripthashes.lookup scripthash with
        | none => .error (.keyError scripthash)
        | some address =>
          match rest with
          | [] => .error .indexError
          | newStatus :: _ => .ok (address, newStatus)
      | _ =>
        -- a non-string payload key cannot be a key of the scripthash dict
        .error (.keyError "")

/-! ### Lemmas about server selection -/

theorem delKey_sublist (ss : Servers) (h : Host) : (delKey ss h).Sublist ss :=
  List.filter_sublist ss

theorem delKey_length_lt (ss : Servers) (h : Host) (info : ServerInfo)
    (hmem : (h, info) ∈ ss) : (delKey ss h).length < ss.length := by
  induction ss with
  | nil => cases hmem
  | cons x xs ih =>
    rcases List.mem_cons.mp hmem with hx | hmem'
    · subst hx
      simp only [delKey, List.filter_cons, BEq.refl, Bool.not_true, if_neg, Bool.false_eq_true,
        not_false_eq_true, List.length_cons]
      exact Nat.lt_succ_of_le (List.length_filter_le _ _)
    · by_cases hx : x.1 == h
      · simp only [delKey, List.filter_cons, hx, Bool.not_true, Bool.false_eq_true, if_false,
          List.length_cons]
        exact Nat.lt_succ_of_le (List.length_filter_le _ _)
      · simp only [delKey, List.filter_cons, hx, Bool.not_false, if_true, List.length_cons]
        exact Nat.succ_lt_succ (ih hmem')

theorem pyChoice_mem {rng : List Nat} {l : Servers} {c : Host × ServerInfo} {rng' : List Nat}
    (h : pyChoice rng l = some (c, rng')) : c ∈ l := by
  cases l with
  | nil => simp [pyChoice] at h
  | cons x xs =>
    simp only [pyChoice, Option.some.injEq, Prod.mk.injEq] at h
    exact h.1 ▸ List.get_mem _ _ _

theorem pyChoice_some {rng : List Nat} {srv : Servers} (h : srv ≠ []) :
    ∃ c, pyChoice rng srv = some (c, rng.tail) ∧ c ∈ srv := by
  cases srv with
  | nil => exact absurd rfl h
  | cons x xs => exact ⟨_, rfl, List.get_mem _ _ _⟩

/-- In an association list with pairwise-distinct keys, a key determines its
value. -/
theorem keys_nodup_mem_unique {l : Servers} (hnd : (l.map Prod.fst).Nodup)
    {a : Host} {b c : ServerInfo} (h1 : (a, b) ∈ l) (h2 : (a, c) ∈ l) : b = c := by
  induction l with
  | nil => cases h1
  | cons x xs ih =>
    simp only [List.map_cons, List.nodup_cons] at hnd
    rcases List.mem_cons.mp h1 with hb | hb <;> rcases List.mem_cons.mp h2 with hc | hc
    · rw [← hb] at hc; exact (Prod.mk.injEq _ _ _ _ |>.mp hc).2.symm
    · exact absurd (List.mem_map.mpr ⟨(a, c), hc, by rw [← hb]⟩) hnd.1
    · exact absurd (List.mem_map.mpr ⟨(a, b), hb, by rw [← hc]⟩) hnd.1
    · exact ih hnd.2 hb hc

/-- Success characterization of the selection recursion: a successful pick
returns a host of the (possibly shrunk) registry together with exactly the
port the TLS policy requires, and the returned registry only lost entries. -/
theorem choose_go_ok (u : Bool) : ∀ (counter : Nat) (rng : List Nat) (srv : Servers)
    (h : Host) (p : Nat) (srv' : Servers) (rng' : List Nat),
    choose_random_server_go counter u rng srv = .ok ((h, p), srv', rng') →
    (∃ info, (h, info) ∈ srv' ∧ portFor u info = some p) ∧ srv'.Sublist srv := by
  intro counter
  induction counter with
  | zero => intro rng srv h p srv' rng' heq; simp [choose_random_server_go] at heq
  | succ k ih =>
    intro rng srv h p srv' rng' heq
    rw [choose_random_server_go] at heq
    cases hc : pyChoice rng srv with
    | none => rw [hc] at heq; simp at heq
    | some c =>
      obtain ⟨⟨host, info⟩, rng₂⟩ := c
      rw [hc] at heq
      dsimp only at heq
      cases hp : portFor u info with
      | some port =>
        rw [hp] at heq
        simp only [Except.ok.injEq, Prod.mk.injEq] at heq
        obtain ⟨⟨hh, hpp⟩, hsrv, hrng⟩ := heq
        subst hh; subst hpp; subst hsrv
        exact ⟨⟨info, pyChoice_mem hc, hp⟩, List.Sublist.refl _⟩
      | none =>
        rw [hp] at heq
        obtain ⟨hex, hsub⟩ := ih rng₂ (delKey srv host) h p srv' rng' heq
        exact ⟨hex, hsub.trans (delKey_sublist srv host)⟩

/-- Error characterization of the selection recursion: the only exception
selection raises is the builtin `IndexError` (from `random.choice` on an
empty sequence), and the registry only lost entries. -/
theorem choose_go_error (u : Bool) : ∀ (counter : Nat) (rng : List Nat) (srv : Servers)
    (e : PyErr) (srv' : Servers) (rng' : List Nat),
    choose_random_server_go counter u rng srv = .error (e, srv', rng') →
    e = .indexError ∧ srv'.Sublist srv := by
  intro counter
  induction counter with
  | zero =>
    intro rng srv e srv' rng' heq
    rw [choose_random_server_go] at heq
    simp only [Except.error.injEq, Prod.mk.injEq] at heq
    obtain ⟨he, hs, -⟩ := heq
    exact ⟨he.symm, hs ▸ List.Sublist.refl _⟩
  | succ k ih =>
    intro rng srv e srv' rng' heq
    rw [choose_random_server_go] at heq
    cases hc : pyChoice rng srv with
    | none =>
      rw [hc] at heq
      simp only [Except.error.injEq, Prod.mk.injEq] at heq
      obtain ⟨he, hs, -⟩ := heq
      exact ⟨he.symm, hs ▸ List.Sublist.refl _⟩
    | some c =>
      obtain ⟨⟨host, info⟩, rng₂⟩ := c
      rw [hc] at heq
      dsimp only at heq
      cases hp : portFor u info with
      | some port => rw [hp] at heq; simp at heq
      | none =>
        rw [hp] at heq
        obtain ⟨he, hsub⟩ := ih rng₂ (delKey srv host) e srv' rng' heq
        exact ⟨he, hsub.trans (delKey_sublist srv host)⟩

/-- Completeness of the selection recursion: over a registry with distinct
hosts of which at least one advertises the required port, selection (with
counter exceeding the registry size) always succeeds. -/
theorem choose_go_complete (u : Bool) : ∀ (counter : Nat) (srv : Servers) (rng : List Nat),
    (srv.map Prod.fst).Nodup →
    (∃ q ∈ srv, (portFor u q.2).isSome) →
    srv.length < counter →
    ∃ h p srv' rng', choose_random_server_go counter u rng srv = .ok ((h, p), srv', rng') := by
  intro counter
  induction counter with
  | zero => intro srv rng _ _ hlt; omega
  | succ k ih =>
    intro srv rng hnd hex hlt
    obtain ⟨⟨q1, q2⟩, hq, hqp⟩ := hex
    have hne : srv ≠ [] := by intro hnil; rw [hnil] at hq; cases hq
    obtain ⟨⟨c1, c2⟩, hchoice, hcmem⟩ := @pyChoice_some rng _ hne
    rw [choose_random_server_go, hchoice]
    dsimp only
    cases hp : portFor u c2 with
    | some port => exact ⟨c1, port, srv, rng.tail, rfl⟩
    | none =>
      have hqne : q1 ≠ c1 := by
        intro hqc
        have hq2 : q2 = c2 := keys_nodup_mem_unique hnd (hqc ▸ hq) hcmem
        rw [hq2, hp] at hqp; cases hqp
      have hqdel : (q1, q2) ∈ delKey srv c1 := by
        refine List.mem_filter.mpr ⟨hq, ?_⟩
        simp [hqne]
      have hnd' : ((delKey srv c1).map Prod.fst).Nodup :=
        ((delKey_sublist srv c1).map Prod.fst).nodup hnd
      have hlen : (delKey srv c1).length < k := by
        have := delKey_length_lt srv c1 c2 hcmem
        omega
      exact ih (delKey srv c1) rng.tail hnd' ⟨(q1, q2), hqdel, hqp⟩ hlen

/-- Termination of selection on registries with no usable port: every entry
is deleted in turn and the emptied registry raises `IndexError`. -/
theorem choose_go_all_missing (u : Bool) : ∀ (counter : Nat) (srv : Servers) (rng : List Nat),
    (∀ q ∈ srv, portFor u q.2 = none) →
    srv.length < counter →
    ∃ rng', choose_random_server_go counter u rng srv = .error (.indexError, [], rng') := by
  intro counter
  induction counter with
  | zero => intro srv rng _ hlt; omega
  | succ k ih =>
    intro srv rng hall hlt
    cases hsrv : srv with
    | nil => exact ⟨rng, by rw [choose_random_server_go]; rfl⟩
    | cons x xs =>
      rw [← hsrv]
      have hne : srv ≠ [] := by rw [hsrv]; exact List.cons_ne_nil x xs
      obtain ⟨⟨c1, c2⟩, hchoice, hcmem⟩ := @pyChoice_some rng _ hne
      have hp : portFor u c2 = none := hall (c1, c2) hcmem
      have hall' : ∀ q ∈ delKey srv c1, portFor u q.2 = none := fun q hq =>
        hall q ((delKey_sublist srv c1).subset hq)
      have hlen : (delKey srv c1).length < k := by
        have := delKey_length_lt srv c1 c2 hcmem
        omega
      obtain ⟨rng', hgo⟩ := ih (delKey srv c1) rng.tail hall' hlen
      refine ⟨rng', ?_⟩
      rw [choose_random_server_go, hchoice]
      dsimp only
      rw [hp]
      exact hgo

/-- On a normal exit of `change_server`'s re-pick loop, the selected host is
not in the failed set, the failed set itself is untouched, and the registry
only lost entries. -/
theorem change_server_loop_ok (env : Env) : ∀ (fuel : Nat) (s s' : ClientState),
    change_server_loop fuel env s = some (.ok s') →
    s'.failed_hosts = s.failed_hosts ∧ s'.failed_hosts.contains s'.host = false ∧
    s'.servers.Sublist s.servers := by
  intro fuel
  induction fuel with
  | zero => intro s s' heq; simp [change_server_loop] at heq
  | succ k ih =>
    intro s s' heq
    rw [change_server_loop] at heq
    by_cases hin : s.failed_hosts.contains s.host
    · rw [if_pos hin] at heq
      cases hch : choose_random_server s.use_ssl s.rng s.servers with
      | error e =>
        obtain ⟨e₁, srv', rng'⟩ := e
        rw [hch] at heq; simp at heq
      | ok v =>
        obtain ⟨⟨h, p⟩, srv', rng'⟩ := v
        rw [hch] at heq
        obtain ⟨hf, hc, hsub⟩ := ih _ s' heq
        have hsub' : srv'.Sublist s.servers :=
          (choose_go_ok s.use_ssl _ _ _ _ _ _ _ hch).2
        exact ⟨hf, hc, hsub.trans hsub'⟩
    · rw [if_neg hin] at heq
      simp only [Option.some.injEq, Except.ok.injEq] at heq
      subst heq
      exact ⟨rfl, Bool.of_not_eq_true hin, List.Sublist.refl _⟩

/-! ### Claim C6 — server selection -/

/-- A registry of two usable TLS servers, used as C6's counterexample. -/
def c6servers : Servers := [("h1", ⟨some 7, none, true⟩), ("h2", ⟨some 8, none, true⟩)]

/-- C6 (counterexample): the claim says "selection never returns a host
already in the excluded (failed) set", but `choose_random_server` takes no
excluded set at all — over the registry `c6servers` with failed set
`["h1"]`, a pick of index 0 returns `"h1"`, a member of the failed set.
(The exclusion is enforced only by the `while` loop inside `change_server`
around selection; see the amended theorem.) -/
theorem c6_counterexample :
    choose_random_server true [0] c6servers = .ok (("h1", 7), c6servers, []) ∧
    ("h1" : Host) ∈ (["h1"] : List Host) := ⟨rfl, List.mem_singleton.mpr rfl⟩

/-- C6 (amended): selection over a candidate registry (1) returns, on
success, a host of the returned registry with exactly the port the TLS
policy requires, having only removed entries (never re-added any); (2) over
a registry filtered by `server_is_usable` — as `__init__` builds it — the
returned entry is a usable member of the input registry advertising the
required port; (3) over a registry with pairwise-distinct hosts of which at
least one advertises the required port, selection always succeeds; (4) a
descriptor lacking the required port is permanently removed before retrying,
and the only selection failure is `IndexError` with a shrunk registry; and
(5) the never-return-an-excluded-host guarantee holds not of
`choose_random_server` itself but of `change_server`'s surrounding re-pick
loop: on its normal exit the selected host is not in the failed set, and the
registry was only shrunk. -/
theorem c6_amended_selection :
    (∀ (u : Bool) (rng : List Nat) (srv : Servers) (h : Host) (p : Nat)
        (srv' : Servers) (rng' : List Nat),
        choose_random_server u rng srv = .ok ((h, p), srv', rng') →
        (∃ info, (h, info) ∈ srv' ∧ portFor u info = some p) ∧ srv'.Sublist srv)
  ∧ (∀ (u : Bool) (rng : List Nat) (srv : Servers) (h : Host) (p : Nat)
        (srv' : Servers) (rng' : List Nat),
        (∀ q ∈ srv, server_is_usable u q.2 = true) →
        choose_random_server u rng srv = .ok ((h, p), srv', rng') →
        ∃ info, (h, info) ∈ srv ∧ server_is_usable u info = true ∧ portFor u info = some p)
  ∧ (∀ (u : Bool) (rng : List Nat) (srv : Servers),
        (srv.map Prod.fst).Nodup →
        (∃ q ∈ srv, (portFor u q.2).isSome) →
        ∃ h p srv' rng', choose_random_server u rng srv = .ok ((h, p), srv', rng'))
  ∧ (∀ (u : Bool) (rng : List Nat) (srv : Servers) (e : PyErr)
        (srv' : Servers) (rng' : List Nat),
        choose_random_server u rng srv = .error (e, srv', rng') →
        e = .indexError ∧ srv'.Sublist srv)
  ∧ (∀ (fuel : Nat) (env : Env) (s s' : ClientState),
        change_server_loop fuel env s = some (.ok s') →
        s'.failed_hosts.contains s'.host = false ∧ s'.servers.Sublist s.servers) := by
  refine ⟨?_, ?_, ?_, ?_, ?_⟩
  · intro u rng srv h p srv' rng' heq
    exact choose_go_ok u _ _ _ _ _ _ _ heq
  · intro u rng srv h p srv' rng' husable heq
    obtain ⟨⟨info, hmem, hport⟩, hsub⟩ := choose_go_ok u _ _ _ _ _ _ _ heq
    have hmem' : (h, info) ∈ srv := hsub.subset hmem
    exact ⟨info, hmem', husable _ hmem', hport⟩
  · intro u rng srv hnd hex
    exact choose_go_complete u _ _ _ hnd hex (Nat.lt_succ_self _)
  · intro u rng srv e srv' rng' heq
    exact choose_go_error u _ _ _ _ _ _ heq
  · intro fuel env s s' heq
    obtain ⟨-, hc, hsub⟩ := change_server_loop_ok env fuel s s' heq
    exact ⟨hc, hsub⟩

/-- Witness for `c6_amended_selection` at concrete inputs (the usability and
completeness conjuncts over `c6servers`). -/
theorem c6_amended_selection_witness :
    (∃ info, (("h1" : Host), info) ∈ c6servers ∧ server_is_usable true info = true ∧
      portFor true info = some 7)
  ∧ (∃ h p srv' rng', choose_random_server true [1] c6servers = .ok ((h, p), srv', rng')) :=
  ⟨c6_amended_selection.2.1 true [0] c6servers "h1" 7 c6servers [] (by decide) rfl,
   c6_amended_selection.2.2.1 true [1] c6servers (by decide)
     ⟨("h1", ⟨some 7, none, true⟩), by simp [c6servers], rfl⟩⟩

/-! ### Claim C7 — empty registry -/

/-- C7 (counterexample): an empty registry makes selection raise the builtin
`IndexError` coming from `random.choice` on an empty sequence.  rpc.py
defines no `NoServersAvailable` error class anywhere (its only custom
exception is `RPCResponseExecption`, used for RPC error payloads), so the
failure is a generic library exception, not the dedicated surfaced error the
claim requires. -/
theorem c7_counterexample :
    choose_random_server true [3] ([] : Servers) = .error (.indexError, [], [3]) := rfl

/-- C7 (amended): when the registry becomes empty — either given empty or
emptied because no entry advertises the port the TLS policy requires —
selection terminates by raising the builtin `IndexError` from
`random.choice` on an empty sequence (a surfaced, fatal failure, and the
only exception selection can raise, see `c6_amended_selection`), not a
dedicated `NoServersAvailable` error, which the code never defines. -/
theorem c7_amended_empty_registry :
    (∀ (u : Bool) (rng : List Nat),
        choose_random_server u rng ([] : Servers) = .error (.indexError, [], rng))
  ∧ (∀ (u : Bool) (rng : List Nat) (srv : Servers),
        (∀ q ∈ srv, portFor u q.2 = none) →
        ∃ rng', choose_random_server u rng srv = .error (.indexError, [], rng')) :=
  ⟨fun _ _ => rfl,
   fun u rng srv hall => choose_go_all_missing u (srv.length + 1) srv rng hall (Nat.lt_succ_self _)⟩

/-- A registry whose only entry lacks the TLS port (it only has a `"t"`
port), used to witness `c7_amended_empty_registry`. -/
def c7servers : Servers := [("h1", ⟨none, some 50001, true⟩)]

/-- Witness for `c7_amended_empty_registry` at a concrete registry. -/
theorem c7_amended_empty_registry_witness :
    ∃ rng', choose_random_server true [0] c7servers = .error (.indexError, [], rng') :=
  c7_amended_empty_registry.2 true [0] c7servers (by decide)

/-! ### Claim C4 — fee cache -/

/-- C4: the fee-cache predicate in the source is inverted.  The claim (and
the spec's stated intent) says a cached entry is served while `now <
expiresAt` and refreshed otherwise; the source serves the cache only when
`expiry <= now` (i.e. only once STALE).  Concretely with ttl = 10 minutes
and the entry cached at time 0: a second call at time 5 (within the TTL)
issues the underlying RPC again (1 call instead of the claimed 0, so the
two-calls-within-10-minutes scenario issues two RPCs, not one), and a call
at time 15 (after expiry) serves the stale cached value with no RPC (instead
of the claimed fresh call).  `estimate_fee_cached_spec` (the spec's
corrected predicate) behaves as the claim states on both inputs. -/
theorem c4_fee_cache_inverted :
    estimate_fee_cached 0 10 [] 6 (.num 100) = (.num 100, [(6, ⟨.num 100, 10⟩)], 1)
  ∧ (estimate_fee_cached 5 10 [(6, ⟨.num 100, 10⟩)] 6 (.num 200)).2.2 = 1
  ∧ estimate_fee_cached 15 10 [(6, ⟨.num 100, 10⟩)] 6 (.num 300) = (.num 100, [(6, ⟨.num 100, 10⟩)], 0)
  ∧ (estimate_fee_cached_spec 5 10 [(6, ⟨.num 100, 10⟩)] 6 (.num 200)).2.2 = 0
  ∧ (estimate_fee_cached_spec 15 10 [(6, ⟨.num 100, 10⟩)] 6 (.num 300)).2.2 = 1 :=
  ⟨rfl, rfl, rfl, rfl, rfl⟩

/-! ### Claim C9 — subscription dispatch -/

/-- C9: a balance-subscription push whose payload carries
`[scripthash, newStatus]`, where the scripthash is mapped to an external
address in the `addrs_scripthashes` dict captured at subscribe time, makes
the dispatch closure invoke the callback with the EXTERNAL ADDRESS from the
mapping (never the raw scripthash) and the new status. -/
theorem c9_subscription_dispatch (m : List (String × String)) (h address : String)
    (status : Val) (hm : m.lookup h = some address) :
    handle_scripthash_notify m [.str h, status] none = .ok (address, status) := by
  simp [handle_scripthash_notify, errTruthy, hm]

/-- Witness for `c9_subscription_dispatch`: scripthash `"deadbeef"` mapped
to address `"1Abc"`; the callback receives `("1Abc", 2)`. -/
theorem c9_subscription_dispatch_witness :
    handle_scripthash_notify [("deadbeef", "1Abc")] [.str "deadbeef", .num 2] none
      = .ok ("1Abc", .num 2) :=
  c9_subscription_dispatch [("deadbeef", "1Abc")] "deadbeef" "1Abc" (.num 2) rfl

/-! ### Claim C3 — the transport attribute is never assigned -/

/-- Client state carried by an interpreter outcome of `connect_to_server` /
`change_server` / `change_server_loop`. -/
def resState : Except (PyErr × ClientState) ClientState → ClientState
  | .error (_, s) => s
  | .ok s => s

/-- Client state carried by an outcome of `get_coroutines_go`. -/
def resStateGo :
    Except (PyErr × ClientState) ((List WaitFor × ClientState) ⊕ (List RpcResult × ClientState)) →
    ClientState
  | .error (_, s) => s
  | .ok (.inl (_, s)) => s
  | .ok (.inr (_, s)) => s

/-- Client state carried by an outcome of `rpc_multiple_send_and_wait`. -/
def resStateMulti : Except (PyErr × ClientState) (List RpcResult × ClientState) → ClientState
  | .error (_, s) => s
  | .ok (_, s) => s

/-- Client state carried by an outcome of `run_command`. -/
def resStateRun : Except (PyErr × ClientState) (Option Val × ClientState) → ClientState
  | .error (_, s) => s
  | .ok (_, s) => s

/-- Of the whole modelled family, only `change_server` writes the
`transport` attribute — and on an unassigned attribute it raises before
reaching that write.  Hence every operation preserves "`self.transport` was
never assigned": from an attribute-unset state, any finished outcome (normal
or exceptional) is again attribute-unset. -/
theorem transportAttr_never_assigned (env : Env) : ∀ fuel : Nat,
    (∀ s r, s.transportAttr = none → connect_to_server fuel env s = some r →
      (resState r).transportAttr = none)
  ∧ (∀ s r, s.transportAttr = none → change_server fuel env s = some r →
      (resState r).transportAttr = none)
  ∧ (∀ s r, s.transportAttr = none → change_server_loop fuel env s = some r →
      (resState r).transportAttr = none)
  ∧ (∀ s original rest acc r, s.transportAttr = none →
      get_coroutines_go fuel env s original rest acc = some r →
      (resStateGo r).transportAttr = none)
  ∧ (∀ s requests r, s.transportAttr = none →
      rpc_multiple_send_and_wait fuel env s requests = some r →
      (resStateMulti r).transportAttr = none)
  ∧ (∀ s request r, s.transportAttr = none → run_command fuel env s request = some r →
      (resStateRun r).transportAttr = none) := by
  intro fuel
  induction fuel with
  | zero =>
    refine ⟨fun s r _ heq => ?_, fun s r _ heq => ?_, fun s r _ heq => ?_,
      fun s original rest acc r _ heq => ?_, fun s requests r _ heq => ?_,
      fun s request r _ heq => ?_⟩ <;> exact Option.noConfusion heq
  | succ k ih =>
    obtain ⟨ihConn, ihChange, ihLoop, ihGo, ihMulti, ihRun⟩ := ih
    refine ⟨?_, ?_, ?_, ?_, ?_, ?_⟩
    · -- connect_to_server
      intro s r hattr heq
      rw [connect_to_server] at heq
      dsimp only at heq
      cases henv : env.connect s.host s.port with
      | raiseOS =>
        rw [henv] at heq
        dsimp only at heq
        exact ihChange { s with attempts := s.attempts + 1 } r hattr heq
      | raiseSSL =>
        rw [henv] at heq
        dsimp only at heq
        exact ihChange { s with attempts := s.attempts + 1 } r hattr heq
      | nullTransport =>
        rw [henv] at heq
        dsimp only at heq
        cases hcs : change_server k env { s with attempts := s.attempts + 1 } with
        | none => rw [hcs] at heq; exact Option.noConfusion heq
        | some r' =>
          rw [hcs] at heq
          cases r' with
          | ok s' =>
            cases heq
            exact ihChange { s with attempts := s.attempts + 1 } (.ok s') hattr hcs
          | error e =>
            cases heq
            exact ihChange { s with attempts := s.attempts + 1 } (.error e) hattr hcs
      | ok =>
        rw [henv] at heq
        dsimp only at heq
        cases hrc : run_command k env { s with attempts := s.attempts + 1, nextId := 0 }
            ("server.version", [.str s.client_name, s.protocol_version]) with
        | none => rw [hrc] at heq; exact Option.noConfusion heq
        | some rr =>
          rw [hrc] at heq
          have hrr : (resStateRun rr).transportAttr = none :=
            ihRun { s with attempts := s.attempts + 1, nextId := 0 }
              ("server.version", [.str s.client_name, s.protocol_version]) rr hattr hrc
          cases rr with
          | error e =>
            obtain ⟨pe, s'⟩ := e
            cases pe with
            | rpcResponseException payload => exact ihChange s' r (by exact hrr) heq
            | indexError => cases heq; exact hrr
            | keyError k₁ => cases heq; exact hrr
            | attributeError a₁ => cases heq; exact hrr
            | typeError => cases heq; exact hrr
            | timeoutError => cases heq; exact hrr
            | failoverExhausted n₁ => cases heq; exact hrr
            | exceptionErr payload => cases heq; exact hrr
          | ok v =>
            obtain ⟨d, s'⟩ := v
            cases d with
            | none => cases heq; exact hrr
            | some dv =>
              cases dv with
              | null => cases heq; exact hrr
              | str s₁ => cases heq; exact hrr
              | num n₁ => cases heq; exact hrr
              | arr xs =>
                cases xs with
                | nil => cases heq; exact hrr
                | cons v0 xs' =>
                  cases xs' with
                  | nil => cases heq; exact hrr
                  | cons v1 xs'' => cases heq; exact hrr
    · -- change_server: with the attribute unset it raises before the write
      intro s r hattr heq
      rw [change_server, hattr] at heq
      cases heq
      exact hattr
    · -- change_server_loop
      intro s r hattr heq
      rw [change_server_loop] at heq
      by_cases hin : s.failed_hosts.contains s.host
      · rw [if_pos hin] at heq
        cases hch : choose_random_server s.use_ssl s.rng s.servers with
        | error e =>
          obtain ⟨e₁, srv', rng'⟩ := e
          rw [hch] at heq
          cases heq
          exact hattr
        | ok v =>
          obtain ⟨⟨h, p⟩, srv', rng'⟩ := v
          rw [hch] at heq
          dsimp only at heq
          exact ihLoop { s with host := h, port := p, servers := srv', rng := rng' } r hattr heq
      · rw [if_neg hin] at heq
        cases heq
        exact hattr
    · -- get_coroutines_go
      intro s original rest acc r hattr heq
      cases rest with
      | nil =>
        rw [get_coroutines_go] at heq
        cases heq
        exact hattr
      | cons req rest' =>
        obtain ⟨m, p⟩ := req
        rw [get_coroutines_go] at heq
        by_cases hsf : env.sendFails s.nextId
        · rw [if_pos hsf] at heq
          cases hcs : change_server k env s with
          | none => rw [hcs] at heq; exact Option.noConfusion heq
          | some r' =>
            rw [hcs] at heq
            cases r' with
            | error e =>
              cases heq
              exact ihChange _ (.error e) hattr hcs
            | ok s' =>
              dsimp only at heq
              have hs' : s'.transportAttr = none := ihChange _ (.ok s') hattr hcs
              cases hm : rpc_multiple_send_and_wait k env s' original with
              | none => rw [hm] at heq; exact Option.noConfusion heq
              | some rm =>
                rw [hm] at heq
                have hrm : (resStateMulti rm).transportAttr = none := ihMulti _ _ rm hs' hm
                cases rm with
                | error e => cases heq; exact hrm
                | ok v =>
                  obtain ⟨values, s''⟩ := v
                  cases heq
                  exact hrm
        · rw [if_neg hsf] at heq
          exact ihGo { s with nextId := s.nextId + 1 } original rest'
            (acc ++ [⟨s.nextId, m, p, s.timeout⟩]) r hattr heq
    · -- rpc_multiple_send_and_wait
      intro s requests r hattr heq
      rw [rpc_multiple_send_and_wait] at heq
      cases hg : get_coroutines_go k env s requests requests [] with
      | none => rw [hg] at heq; exact Option.noConfusion heq
      | some rg =>
        rw [hg] at heq
        have hrg : (resStateGo rg).transportAttr = none := ihGo _ _ _ _ rg hattr hg
        cases rg with
        | error e => cases heq; exact hrg
        | ok v =>
          cases v with
          | inl w =>
            obtain ⟨ws, s'⟩ := w
            dsimp only at heq
            cases hgw : gather env ws with
            | error e => rw [hgw] at heq; cases heq; exact hrg
            | ok values => rw [hgw] at heq; cases heq; exact hrg
          | inr w =>
            obtain ⟨values, s'⟩ := w
            cases heq
            exact hrg
    · -- run_command
      intro s request r hattr heq
      rw [run_command] at heq
      cases hm : rpc_multiple_send_and_wait k env s [request] with
      | none => rw [hm] at heq; exact Option.noConfusion heq
      | some rm =>
        rw [hm] at heq
        have hrm : (resStateMulti rm).transportAttr = none := ihMulti _ _ rm hattr hm
        cases rm with
        | error e => cases heq; exact hrm
        | ok v =>
          obtain ⟨values, s'⟩ := v
          cases values with
          | nil => cases heq; exact hrm
          | cons r₀ values' =>
            dsimp only at heq
            cases hre : r₀.error with
            | none => rw [hre] at heq; cases heq; exact hrm
            | some e₀ =>
              rw [hre] at heq
              dsimp only at heq
              by_cases htr : e₀.truthy
              · rw [if_pos htr] at heq; cases heq; exact hrm
              · rw [if_neg htr] at heq; cases heq; exact hrm

/-- C3: `__init__` (rpc.py lines 68-95) never assigns `self.transport` —
the state it hands to its final `connect_to_server()` call has the attribute
unset — and `connect_to_server` only binds the created transport to a local
variable (in the model: no operation other than `change_server` writes
`transportAttr`, and `transportAttr_never_assigned` proves the attribute
stays unset across every finished operation).  Consequently the first
invocation of `change_server`, from any state reachable from `__init__`,
raises `AttributeError` at its very first statement (`if self.transport:`)
with the state unchanged — it neither closes a stale connection nor fails
over. -/
theorem c3_first_change_server_attribute_error :
    (∀ (use_ssl : Bool) (client_name : String) (protocol_version : Val)
        (timeout max_servers : Nat) (catalog : Servers) (host : Host) (port : Nat)
        (rng : List Nat),
        (init_state use_ssl client_name protocol_version timeout max_servers catalog
          host port rng).transportAttr = none)
  ∧ (∀ (fuel : Nat) (env : Env) (s : ClientState), s.transportAttr = none →
        change_server (fuel + 1) env s = some (.error (.attributeError "transport", s)))
  ∧ (∀ (env : Env) (fuel : Nat) (s : ClientState) (r : Except (PyErr × ClientState) ClientState),
        s.transportAttr = none → connect_to_server fuel env s = some r →
        (resState r).transportAttr = none) := by
  refine ⟨fun _ _ _ _ _ _ _ _ _ => rfl, ?_, ?_⟩
  · intro fuel env s hattr
    rw [change_server, hattr]
  · intro env fuel s r hattr heq
    exact (transportAttr_never_assigned env fuel).1 s r hattr heq

/-- An environment in which every server rejects every connection attempt
with `OSError` (connection refused) and no request traffic happens. -/
def envAllFail : Env where
  connect := fun _ _ => .raiseOS
  sendFails := fun _ => false
  arrival := fun _ => 0
  data := fun _ => none
  err := fun _ => none

/-- Witness for `c3_first_change_server_attribute_error`: a concrete
freshly-initialized client (attribute unset); its first `change_server`
raises `AttributeError` and leaves the state untouched. -/
theorem c3_first_change_server_attribute_error_witness :
    change_server 1 envAllFail
      (init_state true "cn" (.str "1.4") 15 5 c6servers "h1" 7 [0])
      = some (.error (.attributeError "transport",
        init_state true "cn" (.str "1.4") 15 5 c6servers "h1" 7 [0])) :=
  c3_first_change_server_attribute_error.2.1 0 envAllFail _ rfl

/-! ### Claim C1 — failover exhaustion bound -/

/-- Three candidate TLS servers. -/
def c1servers : Servers :=
  [("h1", ⟨some 1, none, true⟩), ("h2", ⟨some 2, none, true⟩), ("h3", ⟨some 3, none, true⟩)]

/-- A Connected client (transport attribute assigned, as in the spec's
failover-sequence starting state) with the three candidate servers of
`c1servers`, `max_servers = 3`, no failed hosts yet, about to attempt a
connection to `"h1"`.  The rng stream `[1, 2]` makes the re-pick loop select
`"h2"` and then `"h3"`. -/
def c1state : ClientState where
  use_ssl := true
  client_name := "cn"
  protocol_version := .str "1.4"
  timeout := 15
  max_servers := 3
  servers := c1servers
  host := "h1"
  port := 1
  failed_hosts := []
  transportAttr := some (some ())
  server_electrumx_version := none
  server_protocol_version := none
  rng := [1, 2]
  nextId := 0
  attempts := 0

/-- One step of `connect_to_server` when the connection attempt raises
`OSError` (connection refused): control passes to `change_server` with the
attempt counted. -/
theorem connect_to_server_raiseOS (m : Nat) (env : Env) (s : ClientState)
    (hconn : env.connect s.host s.port = .raiseOS) :
    connect_to_server (m + 1) env s
      = change_server m env { s with attempts := s.attempts + 1 } := by
  rw [connect_to_server]
  dsimp only
  rw [hconn]

/-- One iteration of `change_server`'s re-pick loop: the current host is
failed, so a new (host, port) is selected and the loop continues. -/
theorem change_server_loop_pick (m : Nat) (env : Env) (s : ClientState)
    (h : Host) (p : Nat) (srv' : Servers) (rng' : List Nat)
    (hin : s.failed_hosts.contains s.host = true)
    (hch : choose_random_server s.use_ssl s.rng s.servers = .ok ((h, p), srv', rng')) :
    change_server_loop (m + 1) env s
      = change_server_loop m env { s with host := h, port := p, servers := srv', rng := rng' } := by
  rw [change_server_loop, if_pos hin, hch]

/-- Exit of `change_server`'s re-pick loop: the current host is not failed. -/
theorem change_server_loop_done (m : Nat) (env : Env) (s : ClientState)
    (hin : s.failed_hosts.contains s.host = false) :
    change_server_loop (m + 1) env s = some (.ok s) := by
  rw [change_server_loop, if_neg (by rw [hin]; exact Bool.false_ne_true)]

/-- One step of `change_server` from a live-transport state, below the
exhaustion bound: the transport is closed (`transportAttr := some none`),
the host recorded as failed, the loop re-picks, and reconnection starts. -/
theorem change_server_step_closes (m : Nat) (env : Env) (s s' : ClientState)
    (hattr : s.transportAttr = some (some ()))
    (hlt : ¬ s.max_servers ≤ (failedAfterAppend s.failed_hosts s.host).length)
    (hloop : change_server_loop m env
        { s with
            transportAttr := some none,
            failed_hosts := failedAfterAppend s.failed_hosts s.host } = some (.ok s')) :
    change_server (m + 1) env s = connect_to_server m env s' := by
  rw [change_server, hattr]
  simp only [Option.isSome_some, if_true]
  rw [if_neg hlt, hloop]

/-- One step of `change_server` from an already-closed-transport state
(`self.transport = None`), below the exhaustion bound. -/
theorem change_server_stale_step (m : Nat) (env : Env) (s s' : ClientState)
    (hattr : s.transportAttr = some none)
    (hlt : ¬ s.max_servers ≤ (failedAfterAppend s.failed_hosts s.host).length)
    (hloop : change_server_loop m env
        { s with failed_hosts := failedAfterAppend s.failed_hosts s.host } = some (.ok s')) :
    change_server (m + 1) env s = connect_to_server m env s' := by
  rw [change_server, hattr]
  simp only [Option.isSome_none, Bool.false_eq_true, if_false]
  rw [if_neg hlt, hloop]

/-- The exhaustion step of `change_server` (from a closed-transport state):
once the appended failed-host list reaches `max_servers`, the exhaustion
exception is raised at once. -/
theorem change_server_exhaust (m : Nat) (env : Env) (s : ClientState)
    (hattr : s.transportAttr = some none)
    (hge : s.max_servers ≤ (failedAfterAppend s.failed_hosts s.host).length) :
    change_server (m + 1) env s
      = some (.error (.failoverExhausted (failedAfterAppend s.failed_hosts s.host).length,
          { s with failed_hosts := failedAfterAppend s.failed_hosts s.host })) := by
  rw [change_server, hattr]
  simp only [Option.isSome_none, Bool.false_eq_true, if_false]
  rw [if_pos hge, hattr]

/-- Successive states of the C1 failover scenario: after the first failed
connection attempt. -/
def c1s1 : ClientState := { c1state with attempts := 1 }

/-- C1 scenario: after recording "h1" as failed and picking "h2". -/
def c1s3 : ClientState :=
  { c1state with
      attempts := 1, transportAttr := some none, failed_hosts := ["h1"],
      host := "h2", port := 2, rng := [2] }

/-- C1 scenario: after the second failed connection attempt. -/
def c1s4 : ClientState := { c1s3 with attempts := 2 }

/-- C1 scenario: after recording "h2" as failed and picking "h3". -/
def c1s5 : ClientState :=
  { c1state with
      attempts := 2, transportAttr := some none, failed_hosts := ["h1", "h2"],
      host := "h3", port := 3, rng := [] }

/-- C1 scenario: after the third failed connection attempt, about to raise. -/
def c1s6 : ClientState := { c1s5 with attempts := 3 }

/-- The state in which the failover scenario of `c1_failover_exhausted`
raises: all three hosts failed, three connection attempts made, the stale
transport closed (`transportAttr = some none`), rng exhausted. -/
def c1final : ClientState :=
  { c1state with
      host := "h3", port := 3, failed_hosts := ["h1", "h2", "h3"],
      transportAttr := some none, rng := [], attempts := 3 }

/-- C1: (general part) whenever `change_server` runs in a state whose
`transport` attribute is assigned (a failover sequence per the spec starts
from the Connected state; claim C3 records that such states are not actually
reachable from `__init__`) and the failed-host list after appending the
current host has reached `max_servers`, it raises the exhaustion exception
(`failoverExhausted`, rpc.py line 146) immediately: no further connection is
attempted (`attempts` unchanged), no other server is selected (`host` and
`servers` unchanged), and the computation terminates at once for every fuel.
(Scenario part) with `max_servers = 3`, three candidate servers that all
refuse connections, and any sufficiently large fuel `n + 9`, the initial
connection attempt fails over through all three servers and raises
`failoverExhausted 3` after EXACTLY three connection attempts — the third
failure raises, and no fourth attempt is made no matter how much fuel
remains. -/
theorem c1_failover_exhausted :
    (∀ (fuel : Nat) (env : Env) (s : ClientState) (tr : Option Unit),
        s.transportAttr = some tr →
        s.max_servers ≤ (failedAfterAppend s.failed_hosts s.host).length →
        ∃ s', change_server (fuel + 1) env s
            = some (.error
                (.failoverExhausted (failedAfterAppend s.failed_hosts s.host).length, s'))
          ∧ s'.attempts = s.attempts ∧ s'.host = s.host ∧ s'.servers = s.servers
          ∧ s'.failed_hosts = failedAfterAppend s.failed_hosts s.host)
  ∧ (∀ n : Nat, connect_to_server (n + 9) envAllFail c1state
        = some (.error (.failoverExhausted 3, c1final))
        ∧ c1final.attempts = c1state.attempts + 3
        ∧ c1final.failed_hosts = ["h1", "h2", "h3"]) := by
  constructor
  · intro fuel env s tr hattr hmax
    cases tr with
    | none =>
      refine ⟨{ s with failed_hosts := failedAfterAppend s.failed_hosts s.host }, ?_,
        rfl, rfl, rfl, rfl⟩
      rw [change_server, hattr]
      simp only [Option.isSome_none, Bool.false_eq_true, if_false]
      rw [if_pos hmax, hattr]
    | some u =>
      refine ⟨{ s with
          transportAttr := some none,
          failed_hosts := failedAfterAppend s.failed_hosts s.host }, ?_, rfl, rfl, rfl, rfl⟩
      rw [change_server, hattr]
      simp only [Option.isSome_some, if_true]
      rw [if_pos hmax]
  · intro n
    have t1 : connect_to_server (n + 9) envAllFail c1state
        = change_server (n + 8) envAllFail c1s1 :=
      connect_to_server_raiseOS (n + 8) envAllFail c1state rfl
    have hloop1 : change_server_loop (n + 7) envAllFail
        { c1s1 with
            transportAttr := some none,
            failed_hosts := failedAfterAppend c1s1.failed_hosts c1s1.host }
        = some (.ok c1s3) :=
      (change_server_loop_pick (n + 6) envAllFail
          { c1s1 with transportAttr := some none, failed_hosts := ["h1"] }
          "h2" 2 c1servers [2] rfl rfl).trans
        (change_server_loop_done (n + 5) envAllFail c1s3 rfl)
    have t2 : change_server (n + 8) envAllFail c1s1
        = connect_to_server (n + 7) envAllFail c1s3 :=
      change_server_step_closes (n + 7) envAllFail c1s1 c1s3 rfl (by decide) hloop1
    have t3 : connect_to_server (n + 7) envAllFail c1s3
        = change_server (n + 6) envAllFail c1s4 :=
      connect_to_server_raiseOS (n + 6) envAllFail c1s3 rfl
    have hloop2 : change_server_loop (n + 5) envAllFail
        { c1s4 with failed_hosts := failedAfterAppend c1s4.failed_hosts c1s4.host }
        = some (.ok c1s5) :=
      (change_server_loop_pick (n + 4) envAllFail
          { c1s4 with failed_hosts := ["h1", "h2"] }
          "h3" 3 c1servers [] rfl rfl).trans
        (change_server_loop_done (n + 3) envAllFail c1s5 rfl)
    have t4 : change_server (n + 6) envAllFail c1s4
        = connect_to_server (n + 5) envAllFail c1s5 :=
      change_server_stale_step (n + 5) envAllFail c1s4 c1s5 rfl (by decide) hloop2
    have t5 : connect_to_server (n + 5) envAllFail c1s5
        = change_server (n + 4) envAllFail c1s6 :=
      connect_to_server_raiseOS (n + 4) envAllFail c1s5 rfl
    have t6 : change_server (n + 4) envAllFail c1s6
        = some (.error (.failoverExhausted 3, c1final)) :=
      change_server_exhaust (n + 3) envAllFail c1s6 rfl (by decide)
    exact ⟨t1.trans (t2.trans (t3.trans (t4.trans (t5.trans t6)))), rfl, rfl⟩


/-- Witness for `c1_failover_exhausted` (general part) at a concrete state:
two hosts already failed, the current host is a third distinct one,
`max_servers = 3`; `change_server` raises `failoverExhausted 3` without a
further attempt. -/
theorem c1_failover_exhausted_witness :
    ∃ s', change_server 1 envAllFail
        { c1state with failed_hosts := ["a", "b"], host := "c" }
      = some (.error (.failoverExhausted
          (failedAfterAppend ["a", "b"] "c").length, s'))
      ∧ s'.attempts = ({ c1state with failed_hosts := ["a", "b"], host := "c" }
          : ClientState).attempts
      ∧ s'.host = ({ c1state with failed_hosts := ["a", "b"], host := "c" }
          : ClientState).host
      ∧ s'.servers = ({ c1state with failed_hosts := ["a", "b"], host := "c" }
          : ClientState).servers
      ∧ s'.failed_hosts = failedAfterAppend ["a", "b"] "c" :=
  c1_failover_exhausted.1 0 envAllFail _ (some ()) rfl (by decide)

/-! ### Claim C2 — batch timeout handling -/

/-- An environment where the connection is up, every send succeeds, and
every response arrives after 16 seconds — beyond the 15-second timeout. -/
def envTimeout : Env where
  connect := fun _ _ => .ok
  sendFails := fun _ => false
  arrival := fun _ => 16
  data := fun _ => some (.num 1)
  err := fun _ => none

/-- C2 (code evaluated at the failing input): a single-request batch whose
response arrives after the 15-second timeout makes
`rpc_multiple_send_and_wait` surface `asyncio.TimeoutError` to the caller:
the error propagates out of `run_until_complete`, no failover is triggered
(`attempts`, `host` and `servers` unchanged; `failed_hosts` not cleared),
and the batch is not resubmitted.  The source's `except asyncio.TimeoutError`
in `get_coroutines` surrounds only the construction of the `wait_for`
coroutine — construction performs no awaiting and cannot raise
`TimeoutError`, so that failover-and-resubmit handler is dead code (the
model of `get_coroutines_go` has no reachable branch for it). -/
theorem c2_timeout_surfaced :
    rpc_multiple_send_and_wait 5 envTimeout c1state [("blockchain.estimatefee", [.num 6])]
      = some (.error (.timeoutError, { c1state with nextId := 1 }))
  ∧ ({ c1state with nextId := 1 } : ClientState).attempts = c1state.attempts
  ∧ ({ c1state with nextId := 1 } : ClientState).host = c1state.host
  ∧ ({ c1state with nextId := 1 } : ClientState).servers = c1state.servers :=
  ⟨rfl, rfl, rfl, rfl⟩

/-! ### Claims C5 and C8 — batch correlation and single-request unwrapping -/

theorem mkWaits_length (timeout : Nat) : ∀ (rest : List Request) (base : Nat),
    (mkWaits base timeout rest).length = rest.length := by
  intro rest
  induction rest with
  | nil => intro base; rfl
  | cons q rest' ih =>
    intro base
    obtain ⟨m, p⟩ := q
    simp [mkWaits, ih]

theorem mkWaits_getElem (timeout : Nat) : ∀ (rest : List Request) (base i : Nat),
    (mkWaits base timeout rest)[i]?
      = rest[i]?.map (fun q => WaitFor.mk (base + i) q.1 q.2 timeout) := by
  intro rest
  induction rest with
  | nil => intro base i; simp [mkWaits]
  | cons q rest' ih =>
    intro base i
    obtain ⟨m, p⟩ := q
    cases i with
    | zero => simp [mkWaits]
    | succ j =>
      simp only [mkWaits, List.getElem?_cons_succ, ih (base + 1) j]
      have hn : base + 1 + j = base + (j + 1) := by omega
      rw [hn]

theorem mkWaits_mem (timeout : Nat) : ∀ (rest : List Request) (base : Nat) (w : WaitFor),
    w ∈ mkWaits base timeout rest →
    w.timeout = timeout ∧ ∃ i, i < rest.length ∧ w.id = base + i := by
  intro rest
  induction rest with
  | nil => intro base w hw; cases hw
  | cons q rest' ih =>
    intro base w hw
    obtain ⟨m, p⟩ := q
    rcases List.mem_cons.mp hw with hw0 | hw'
    · subst hw0
      exact ⟨rfl, 0, Nat.succ_pos _, rfl⟩
    · obtain ⟨ht, i, hi, hid⟩ := ih (base + 1) w hw'
      exact ⟨ht, i + 1, Nat.succ_lt_succ hi, by omega⟩

/-- When every send succeeds, the request loop of `get_coroutines` allocates
sequential ids and returns the wait list in request order (no failover, no
resubmission; the state only advances its id counter). -/
theorem get_coroutines_go_success (env : Env) : ∀ (rest : List Request) (fuel : Nat)
    (s : ClientState) (original : List Request) (acc : List WaitFor),
    (∀ i, i < rest.length → env.sendFails (s.nextId + i) = false) →
    rest.length < fuel →
    get_coroutines_go fuel env s original rest acc
      = some (.ok (.inl (acc ++ mkWaits s.nextId s.timeout rest,
          { s with nextId := s.nextId + rest.length }))) := by
  intro rest
  induction rest with
  | nil =>
    intro fuel s original acc _ hlt
    cases fuel with
    | zero => simp at hlt
    | succ k =>
      rw [get_coroutines_go]
      simp [mkWaits]
  | cons q rest' ih =>
    intro fuel s original acc hsend hlt
    obtain ⟨m, p⟩ := q
    cases fuel with
    | zero => simp at hlt
    | succ k =>
      rw [get_coroutines_go]
      have h0 : env.sendFails s.nextId = false := by
        have := hsend 0 (Nat.succ_pos _)
        simpa using this
      rw [if_neg (by rw [h0]; exact Bool.false_ne_true)]
      rw [ih k { s with nextId := s.nextId + 1 } original
        (acc ++ [WaitFor.mk s.nextId m p s.timeout])
        (fun i hi => by
          have := hsend (i + 1) (Nat.succ_lt_succ hi)
          simpa [Nat.add_assoc, Nat.add_comm 1 i] using this)
        (by simpa using Nat.lt_of_succ_lt_succ hlt)]
      simp only [mkWaits, List.append_assoc, List.singleton_append, List.length_cons]
      have hn : s.nextId + 1 + rest'.length = s.nextId + (rest'.length + 1) := by omega
      rw [hn]

/-- When every awaited response arrives within its timeout, `gather` returns
the result dicts in coroutine (= request) order, whatever the arrival
times. -/
theorem gather_ok (env : Env) : ∀ ws : List WaitFor,
    (∀ w ∈ ws, env.arrival w.id ≤ w.timeout) →
    gather env ws = .ok (ws.map (mkResult env)) := by
  intro ws
  induction ws with
  | nil => intro _; rfl
  | cons w ws' ih =>
    intro harr
    rw [gather]
    rw [if_neg (by have := harr w (List.mem_cons_self w ws'); omega)]
    rw [ih (fun w' hw' => harr w' (List.mem_cons_of_mem _ hw'))]
    rfl

/-- Shared success-path lemma for the batcher: when every send succeeds and
every response arrives within the timeout, the batch returns the results in
submission order, correlated by sequentially allocated ids, clears the
failed-host set, and triggers no failover. -/
theorem rpc_multiple_success (env : Env) (s : ClientState) (requests : List Request) (fuel : Nat)
    (hf : requests.length + 2 ≤ fuel)
    (hsend : ∀ i, i < requests.length → env.sendFails (s.nextId + i) = false)
    (harr : ∀ i, i < requests.length → env.arrival (s.nextId + i) ≤ s.timeout) :
    ∃ values s',
      rpc_multiple_send_and_wait fuel env s requests = some (.ok (values, s'))
      ∧ values.length = requests.length
      ∧ (∀ i : Nat, values[i]?
          = requests[i]?.map (fun q => RpcResult.mk q.1 q.2
              (env.data (s.nextId + i)) (env.err (s.nextId + i))))
      ∧ s'.host = s.host ∧ s'.servers = s.servers ∧ s'.attempts = s.attempts
      ∧ s'.failed_hosts = [] := by
  cases fuel with
  | zero => omega
  | succ k =>
    have harr' : ∀ w ∈ mkWaits s.nextId s.timeout requests,
        env.arrival w.id ≤ w.timeout := by
      intro w hw
      obtain ⟨ht, i, hi, hid⟩ := mkWaits_mem s.timeout requests s.nextId w hw
      rw [ht, hid]
      exact harr i hi
    have hrun : rpc_multiple_send_and_wait (k + 1) env s requests
        = some (.ok ((mkWaits s.nextId s.timeout requests).map (mkResult env),
            { s with nextId := s.nextId + requests.length, failed_hosts := [] })) := by
      rw [rpc_multiple_send_and_wait,
        get_coroutines_go_success env requests k s requests [] hsend (by omega)]
      simp only [List.nil_append]
      rw [gather_ok env _ harr']
    refine ⟨_, _, hrun, ?_, ?_, rfl, rfl, rfl, rfl⟩
    · rw [List.length_map, mkWaits_length]
    · intro i
      rw [List.getElem?_map, mkWaits_getElem]
      cases requests[i]? with
      | none => rfl
      | some q => rfl

/-- C5: a batch in which every request is answered successfully (every send
succeeds and every response arrives within the timeout, in ANY arrival
order — `env.arrival` is arbitrary under the bound) yields exactly N results
in submission order: result `i` carries request `i`'s method and params
together with the `data`/`error` the server correlated to the `i`-th
allocated id.  On this fully successful completion the failed-host set is
cleared and no failover happens (`host`, `servers`, `attempts`
unchanged). -/
theorem c5_batch_order (env : Env) (s : ClientState) (requests : List Request) (fuel : Nat)
    (hf : requests.length + 2 ≤ fuel)
    (hsend : ∀ i, i < requests.length → env.sendFails (s.nextId + i) = false)
    (harr : ∀ i, i < requests.length → env.arrival (s.nextId + i) ≤ s.timeout) :
    ∃ values s',
      rpc_multiple_send_and_wait fuel env s requests = some (.ok (values, s'))
      ∧ values.length = requests.length
      ∧ (∀ i : Nat, values[i]?
          = requests[i]?.map (fun q => RpcResult.mk q.1 q.2
              (env.data (s.nextId + i)) (env.err (s.nextId + i))))
      ∧ s'.host = s.host ∧ s'.servers = s.servers ∧ s'.attempts = s.attempts
      ∧ s'.failed_hosts = [] :=
  rpc_multiple_success env s requests fuel hf hsend harr

/-- All sends succeed, all responses arrive immediately, each id `i` is
answered with data `i`. -/
def env5 : Env where
  connect := fun _ _ => .ok
  sendFails := fun _ => false
  arrival := fun _ => 0
  data := fun id => some (.num (Int.ofNat id))
  err := fun _ => none

/-- Witness for `c5_batch_order`: a concrete two-request batch. -/
theorem c5_batch_order_witness :
    ∃ values s',
      rpc_multiple_send_and_wait 4 env5 c1state
          [("blockchain.block.get_header", [.num 1]), ("blockchain.block.get_header", [.num 2])]
        = some (.ok (values, s'))
      ∧ values.length
          = ([("blockchain.block.get_header", [Val.num 1]),
              ("blockchain.block.get_header", [Val.num 2])] : List Request).length
      ∧ (∀ i : Nat, values[i]?
          = ([("blockchain.block.get_header", [Val.num 1]),
              ("blockchain.block.get_header", [Val.num 2])] : List Request)[i]?.map
              (fun q => RpcResult.mk q.1 q.2
                (env5.data (c1state.nextId + i)) (env5.err (c1state.nextId + i))))
      ∧ s'.host = c1state.host ∧ s'.servers = c1state.servers
      ∧ s'.attempts = c1state.attempts ∧ s'.failed_hosts = [] :=
  c5_batch_order env5 c1state
    [("blockchain.block.get_header", [.num 1]), ("blockchain.block.get_header", [.num 2])]
    4 (by decide) (fun _ _ => rfl) (fun _ _ => Nat.zero_le _)

/-- C8: `run_command` over a transport-successful single request (send
succeeds, response within timeout) returns the result's `data` field when
the `error` field is unpopulated, and raises `RPCResponseExecption` carrying
the server-supplied error payload exactly when `error` is populated (a
present, truthy payload — the jsonrpc layer delivers `None` or a non-empty
error object); in both cases no failover is triggered: `host`, `servers`
and `attempts` are unchanged. -/
theorem c8_run_command (env : Env) (s : ClientState) (m : String) (p : List Val)
    (fuel : Nat) (v : Val)
    (hf : 4 ≤ fuel)
    (hsend : env.sendFails s.nextId = false)
    (harr : env.arrival s.nextId ≤ s.timeout) :
    (env.err s.nextId = none →
      ∃ s', run_command fuel env s (m, p) = some (.ok (env.data s.nextId, s'))
        ∧ s'.host = s.host ∧ s'.servers = s.servers ∧ s'.attempts = s.attempts)
  ∧ (env.err s.nextId = some v → v.truthy = true →
      ∃ s', run_command fuel env s (m, p)
          = some (.error (.rpcResponseException v, s'))
        ∧ s'.host = s.host ∧ s'.servers = s.servers ∧ s'.attempts = s.attempts) := by
  cases fuel with
  | zero => omega
  | succ k =>
    obtain ⟨values, s', hrun, hlen, hget, hhost, hserv, hatt, -⟩ :=
      rpc_multiple_success env s [(m, p)] k
        (by simp only [List.length_cons, List.length_nil]; omega)
        (fun i hi => by
          have h0 : i = 0 := by simpa using hi
          subst h0
          simpa using hsend)
        (fun i hi => by
          have h0 : i = 0 := by simpa using hi
          subst h0
          simpa using harr)
    cases values with
    | nil => simp at hlen
    | cons r₀ vrest =>
      cases vrest with
      | cons r₁ vrest' => simp at hlen
      | nil =>
        have hr0 : r₀ = ⟨m, p, env.data (s.nextId + 0), env.err (s.nextId + 0)⟩ := by
          have h0 := hget 0
          simpa using h0
        subst hr0
        rw [run_command, hrun]
        dsimp only
        constructor
        · intro herr
          have herr0 : env.err (s.nextId + 0) = none := by simpa using herr
          rw [herr0]
          exact ⟨s', rfl, hhost, hserv, hatt⟩
        · intro herr htr
          have herr0 : env.err (s.nextId + 0) = some v := by simpa using herr
          rw [herr0]
          dsimp only
          rw [if_pos htr]
          exact ⟨s', rfl, hhost, hserv, hatt⟩

/-- The connection is up and the server answers every request with a
populated error payload. -/
def env8 : Env where
  connect := fun _ _ => .ok
  sendFails := fun _ => false
  arrival := fun _ => 1
  data := fun _ => none
  err := fun _ => some (.str "bad request")

/-- Witness for `c8_run_command` at a concrete request against `env8`. -/
theorem c8_run_command_witness :
    (env8.err c1state.nextId = none →
      ∃ s', run_command 4 env8 c1state ("blockchain.relayfee", [])
          = some (.ok (env8.data c1state.nextId, s'))
        ∧ s'.host = c1state.host ∧ s'.servers = c1state.servers
        ∧ s'.attempts = c1state.attempts)
  ∧ (env8.err c1state.nextId = some (.str "bad request") →
      (Val.str "bad request").truthy = true →
      ∃ s', run_command 4 env8 c1state ("blockchain.relayfee", [])
          = some (.error (.rpcResponseException (.str "bad request"), s'))
        ∧ s'.host = c1state.host ∧ s'.servers = c1state.servers
        ∧ s'.attempts = c1state.attempts) :=
  c8_run_command env8 c1state "blockchain.relayfee" [] 4 (.str "bad request")
    (by omega) rfl (by decide)

/-! ### Claim C10 — broadcast_transaction -/

/-- C10: `broadcast_transaction` is self-referential as implemented — for
every input it recurses on itself (in the argument of `run_command`) before
any request could be built or sent, so it exhausts any amount of fuel
without terminating normally and without ever reaching `run_command` (the
underlying RPC is never issued; `run_command` appears only in the dead
continuation of the definition). -/
theorem c10_broadcast_self_recursion :
    ∀ (fuel : Nat) (env : Env) (s : ClientState) (raw_tx : String),
      broadcast_transaction fuel env s raw_tx = none := by
  intro fuel
  induction fuel with
  | zero => intro env s tx; rfl
  | succ k ih =>
    intro env s tx
    rw [broadcast_transaction, ih env s tx]

end ElectrumX
